import Mathlib

/- Verification of the codespace remote-development agent.

   The embedding covers, from the source:
   - the lexical path handling of the agent (`path.resolve` / `path.join`
     of the node `path` module, posix flavour) and the `safePath` sandbox
     check of `codespace-agent.js`;
   - the bearer-token authentication gate (`assertAuth`) and the
     connection-upgrade handler;
   - the terminal websocket message handler, including a JSON parser
     mirroring `JSON.parse`, and the session teardown on connection close;
   - the buffered / streaming command runners of `ProjectManager`
     (`child_process.exec` with timeout, `spawn` without);
   - a flat filesystem model with the agent file routes
     (GET/PUT/DELETE `/api/files`) and the unsandboxed `ProjectManager`
     file operations of the second server. -/

set_option maxRecDepth 20000

/- ===================== Path model (node `path`, posix) ===================== -/

/-- Split a string at every slash character; components keep their text. -/
def splitSlashAux : List Char → List Char → List String
  | [], acc => [String.mk acc.reverse]
  | c :: cs, acc =>
    if c = '/' then String.mk acc.reverse :: splitSlashAux cs []
    else splitSlashAux cs (c :: acc)

/-- Components of a path string, split on slashes. -/
def splitSlash (s : String) : List String := splitSlashAux s.data []

/-- Normalisation of the components of an absolute path: empty and dot
components vanish, a dot-dot pops the previous component and is dropped at
the root (the `allowAboveRoot = false` normalisation of node). -/
def normAbs (comps : List String) : List String :=
  comps.foldl
    (fun acc c =>
      if c = "" ∨ c = "." then acc
      else if c = ".." then acc.dropLast
      else acc ++ [c]) []

/-- Normalisation of a relative path: leading dot-dot components survive
(`allowAboveRoot = true`). -/
def normRel (comps : List String) : List String :=
  comps.foldl
    (fun acc c =>
      if c = "" ∨ c = "." then acc
      else if c = ".." then
        if acc ≠ [] ∧ acc.getLast? ≠ some ".." then acc.dropLast
        else acc ++ [".."]
      else acc ++ [c]) []

/-- Join components with slashes, without a leading slash. -/
def joinComps : List String → String
  | [] => ""
  | c :: rest => rest.foldl (fun acc x => acc ++ "/" ++ x) c

/-- Whether the string starts with a slash. -/
def headIsSlash (s : String) : Bool :=
  match s.data with
  | c :: _ => c = '/'
  | [] => false

/-- Boolean string-prefix test, the model of `String.prototype.startsWith`. -/
def strPrefix (a b : String) : Bool := a.data.isPrefixOf b.data

/-- `path.resolve(root, p)` for an absolute `root`: if `p` is absolute it is
normalised alone, otherwise the slash-join of `root` and `p` is normalised. -/
def pathResolve (root p : String) : String :=
  if headIsSlash p then "/" ++ joinComps (normAbs (splitSlash p))
  else "/" ++ joinComps (normAbs (splitSlash (root ++ "/" ++ p)))

/-- `path.join(a, b)`: slash-join then normalise, keeping relative paths
relative (node returns "." for an empty result). -/
def pathJoin (a b : String) : String :=
  if headIsSlash a then "/" ++ joinComps (normAbs (splitSlash (a ++ "/" ++ b)))
  else
    let r := normRel (splitSlash (a ++ "/" ++ b))
    if r = [] then "." else joinComps r

/-- Path-component containment: `q` lies strictly inside the directory
`root` (its normalised components properly extend those of `root`). -/
def underRoot (root q : String) : Bool :=
  let rc := normAbs (splitSlash root)
  let qc := normAbs (splitSlash q)
  rc.isPrefixOf qc && !(rc == qc)

/-- `safePath` of codespace-agent.js: reject a missing or empty candidate,
resolve it against the working directory, and accept exactly when the
resolution has the working directory as a string prefix
(`resolved.startsWith(WORKDIR)`). -/
def safePath (workdir : String) (p : Option String) : Except String String :=
  match p with
  | none => .error "Path is required"
  | some s =>
    if s = "" then .error "Path is required"
    else
      let resolved := pathResolve workdir s
      if strPrefix workdir resolved then .ok resolved
      else .error "Invalid path: outside working directory"

/- ===================== Auth gate ===================== -/

/-- `assertAuth` of codespace-agent.js: the Authorization header must be
present, non-empty and equal to the exact string `Bearer <token>`. -/
def assertAuth (auth : Option String) (token : String) : Bool :=
  match auth with
  | none => false
  | some a => !(a == "") && (a == "Bearer " ++ token)

/-- Outcome of an agent HTTP route guarded by `assertAuth`: the handlers
all begin with `if (!assertAuth(req, res)) return;`. -/
inductive Guarded (α : Type) where
  | unauthorized
  | handled (a : α)
deriving DecidableEq

/-- An agent route: run the body only when the auth gate passes. -/
def guarded {α : Type} (auth : Option String) (token : String) (body : α) : Guarded α :=
  if assertAuth auth token then .handled body else .unauthorized

/-- Response of the second server's POST /api/shell route. -/
inductive ShellRouteResp where
  | badRequest (msg : String)
  | ran (command : String) (cwd : Option String) (stream : Bool)
deriving DecidableEq

/-- The POST /api/shell handler of the second server: it checks only that
the command is present and then runs it; the request's Authorization header
is never consulted. -/
def part000ShellRoute (_auth : Option String) (command : Option String)
    (cwd : Option String) (stream : Bool) : ShellRouteResp :=
  match command with
  | none => .badRequest "command is required"
  | some c => if c = "" then .badRequest "command is required" else .ran c cwd stream

/- ===================== Connection upgrade ===================== -/

/-- What the upgrade handler does with the socket. -/
inductive UpgradeOutcome where
  | unauthorizedClosed
  | notFoundClosed
  | sessionCreated (sessionId : String)
deriving DecidableEq

/-- The `server.on("upgrade")` handler of codespace-agent.js: a header that
is not exactly `Bearer <token>` gets a 401 line written and the socket
destroyed; otherwise only the terminal url upgrades and creates a session,
any other url gets 404 and the socket destroyed. -/
def handleUpgrade (auth : Option String) (token : String) (url : String)
    (sessions : List String) (newId : String) : UpgradeOutcome × List String :=
  if auth ≠ some ("Bearer " ++ token) then (.unauthorizedClosed, sessions)
  else if url = "/ws/terminal" then (.sessionCreated newId, newId :: sessions)
  else (.notFoundClosed, sessions)

/- ===================== Terminal session teardown ===================== -/

/-- The live-session registry together with the shells that have been sent
a kill signal. -/
structure TermSessions where
  live : List String
  killedShells : List String
deriving DecidableEq

/-- Deletion from the session map (`activeSessions.delete(sessionId)`). -/
def mapDelete (l : List String) (sid : String) : List String :=
  l.filter (fun s => s ≠ sid)

/-- The `ws.on("close")` handler: kill the paired shell, then delete the
session from the live map. -/
def onConnClose (st : TermSessions) (sid : String) : TermSessions :=
  { live := mapDelete st.live sid, killedShells := sid :: st.killedShells }

/- ===================== Command runner ===================== -/

/-- Abstract behaviour of a spawned shell command: how long it runs when
left alone, its exit code, and the output it produces. -/
structure CmdSpec where
  command : String
  duration : Nat
  exitCode : Int
  stdout : String
  stderr : String
deriving DecidableEq

/-- The result record built by the ProjectManager command runners. -/
structure CmdResult where
  success : Bool
  command : String
  stdout : String
  stderr : String
  exitCode : Int
deriving DecidableEq

/-- A command result together with the time at which the OS process
actually ended (full duration unless something killed it earlier). -/
structure RunOutcome where
  result : CmdResult
  processLifetime : Nat
deriving DecidableEq

/-- Trim along the semantics of `String.prototype.trim`. -/
def strTrim (s : String) : String :=
  String.mk (((s.data.dropWhile Char.isWhitespace).reverse.dropWhile Char.isWhitespace).reverse)

/-- The default timeout of `ProjectManager.runCommand` (30000 ms). -/
def defaultTimeout : Nat := 30000

/-- `ProjectManager.runCommand`: `exec` with `timeout: 30000` kills the
process with SIGTERM when it runs longer than the timeout and rejects; the
catch branch then reports `success: false` with `exitCode: error.code || 1`
and `stderr: error.stderr?.trim() || error.message`. -/
def runCommand (c : CmdSpec) : RunOutcome :=
  if defaultTimeout < c.duration then
    { result :=
        { success := false, command := c.command, stdout := strTrim c.stdout,
          stderr := if strTrim c.stderr = "" then "Command failed: " ++ c.command
                    else strTrim c.stderr,
          exitCode := 1 },
      processLifetime := defaultTimeout }
  else if c.exitCode = 0 then
    { result :=
        { success := true, command := c.command, stdout := strTrim c.stdout,
          stderr := strTrim c.stderr, exitCode := 0 },
      processLifetime := c.duration }
  else
    { result :=
        { success := false, command := c.command, stdout := strTrim c.stdout,
          stderr := if strTrim c.stderr = "" then "Command failed: " ++ c.command
                    else strTrim c.stderr,
          exitCode := c.exitCode },
      processLifetime := c.duration }

/-- `ProjectManager.runCommandStream`: `spawn` with no timeout option; the
promise resolves only on the natural `close` of the process, with
`success: code === 0`, and nothing ever kills the process early. -/
def runCommandStream (c : CmdSpec) : RunOutcome :=
  { result :=
      { success := c.exitCode == 0, command := c.command, stdout := strTrim c.stdout,
        stderr := strTrim c.stderr, exitCode := c.exitCode },
    processLifetime := c.duration }

/- ===================== JSON (the model of JSON.parse) ===================== -/

/-- JSON values. Numbers carry their exact rational value. -/
inductive Json where
  | null
  | bool (b : Bool)
  | num (q : Rat)
  | str (s : String)
  | arr (elems : List Json)
  | obj (fields : List (String × Json))

/-- JSON whitespace: space, tab, line feed, carriage return. -/
def jsonWs (c : Char) : Bool :=
  c == ' ' || c == '\t' || c == '\n' || c == '\r'

/-- Drop leading JSON whitespace. -/
def skipWs : List Char → List Char
  | [] => []
  | c :: cs => if jsonWs c then skipWs cs else c :: cs

/-- Value of a hexadecimal digit. -/
def hexVal (c : Char) : Option Nat :=
  if '0' ≤ c ∧ c ≤ '9' then some (c.toNat - '0'.toNat)
  else if 'a' ≤ c ∧ c ≤ 'f' then some (c.toNat - 'a'.toNat + 10)
  else if 'A' ≤ c ∧ c ≤ 'F' then some (c.toNat - 'A'.toNat + 10)
  else none

/-- Parse the body of a JSON string after the opening quote; raw control
characters and unknown escapes are rejected, as in `JSON.parse`. -/
def parseStrBody : List Char → List Char → Option (String × List Char)
  | [], _ => none
  | '"' :: rest, acc => some (String.mk acc.reverse, rest)
  | '\\' :: e :: rest, acc =>
    if e = '"' then parseStrBody rest ('"' :: acc)
    else if e = '\\' then parseStrBody rest ('\\' :: acc)
    else if e = '/' then parseStrBody rest ('/' :: acc)
    else if e = 'b' then parseStrBody rest ('\x08' :: acc)
    else if e = 'f' then parseStrBody rest ('\x0c' :: acc)
    else if e = 'n' then parseStrBody rest ('\n' :: acc)
    else if e = 'r' then parseStrBody rest ('\r' :: acc)
    else if e = 't' then parseStrBody rest ('\t' :: acc)
    else if e = 'u' then
      match rest with
      | h1 :: h2 :: h3 :: h4 :: rest2 =>
        match hexVal h1, hexVal h2, hexVal h3, hexVal h4 with
        | some a, some b, some c, some d =>
          parseStrBody rest2 (Char.ofNat (((a * 16 + b) * 16 + c) * 16 + d) :: acc)
        | _, _, _, _ => none
      | _ => none
    else none
  | '\\' :: [], _ => none
  | c :: rest, acc => if c.toNat < 0x20 then none else parseStrBody rest (c :: acc)

/-- Take a maximal run of decimal digits. -/
def takeDigits : List Char → List Char × List Char
  | [] => ([], [])
  | c :: cs =>
    if c.isDigit then
      let p := takeDigits cs
      (c :: p.1, p.2)
    else ([], c :: cs)

/-- Numeric value of a digit run. -/
def digitsToNat (ds : List Char) : Nat :=
  ds.foldl (fun acc c => acc * 10 + (c.toNat - '0'.toNat)) 0

/-- Assemble a JSON number from sign, scaled mantissa, number of fraction
digits and decimal exponent. -/
def mkJsonNum (neg : Bool) (mant fracLen : Nat) (exp : Int) : Rat :=
  let m : Int := if neg then -(mant : Int) else (mant : Int)
  let e : Int := exp - (fracLen : Int)
  if 0 ≤ e then mkRat (m * 10 ^ e.toNat) 1
  else mkRat m (10 ^ (-e).toNat)

/-- Parse the exponent digits of a JSON number. -/
def parseExpDigits (neg : Bool) (mant fracLen : Nat) (cs : List Char) :
    Option (Rat × List Char) :=
  let p : Bool × List Char :=
    match cs with
    | '-' :: r => (true, r)
    | '+' :: r => (false, r)
    | _ => (false, cs)
  let q := takeDigits p.2
  if q.1 = [] then none
  else
    let e : Int := if p.1 then -(digitsToNat q.1 : Int) else (digitsToNat q.1 : Int)
    some (mkJsonNum neg mant fracLen e, q.2)

/-- Parse the optional exponent part of a JSON number. -/
def parseExpPart (neg : Bool) (mant fracLen : Nat) : List Char → Option (Rat × List Char)
  | 'e' :: r => parseExpDigits neg mant fracLen r
  | 'E' :: r => parseExpDigits neg mant fracLen r
  | cs => some (mkJsonNum neg mant fracLen 0, cs)

/-- Parse the optional fraction then exponent of a JSON number. -/
def parseFracExp (neg : Bool) (intVal : Nat) : List Char → Option (Rat × List Char)
  | '.' :: r =>
    let p := takeDigits r
    if p.1 = [] then none
    else parseExpPart neg (intVal * 10 ^ p.1.length + digitsToNat p.1) p.1.length p.2
  | cs => parseExpPart neg intVal 0 cs

/-- Parse a JSON number (no leading plus, no leading zeros). -/
def parseNumber (cs : List Char) : Option (Rat × List Char) :=
  let p : Bool × List Char :=
    match cs with
    | '-' :: r => (true, r)
    | _ => (false, cs)
  match p.2 with
  | '0' :: r =>
    match r with
    | c :: _ => if c.isDigit then none else parseFracExp p.1 0 r
    | [] => parseFracExp p.1 0 []
  | c :: r =>
    if c.isDigit then
      let q := takeDigits r
      parseFracExp p.1 (digitsToNat (c :: q.1)) q.2
    else none
  | [] => none

/-- Expect a literal run of characters. -/
def matchLit : List Char → List Char → Option (List Char)
  | [], rest => some rest
  | l :: ls, c :: rest => if c = l then matchLit ls rest else none
  | _ :: _, [] => none

mutual

/-- Parse one JSON value; the fuel bounds the total nesting of the three
mutually recursive parsing functions and exceeds any input's length. -/
def parseVal : Nat → List Char → Option (Json × List Char)
  | 0, _ => none
  | f + 1, cs =>
    match cs with
    | [] => none
    | c :: rest =>
      if c = '\x7b' then
        (parseObjFields f true rest).map (fun p => (Json.obj p.1, p.2))
      else if c = '[' then
        (parseArrElems f true rest).map (fun p => (Json.arr p.1, p.2))
      else if c = '"' then
        (parseStrBody rest []).map (fun p => (Json.str p.1, p.2))
      else if c = 'n' then
        (matchLit ['u', 'l', 'l'] rest).map (fun r => (Json.null, r))
      else if c = 't' then
        (matchLit ['r', 'u', 'e'] rest).map (fun r => (Json.bool true, r))
      else if c = 'f' then
        (matchLit ['a', 'l', 's', 'e'] rest).map (fun r => (Json.bool false, r))
      else
        (parseNumber (c :: rest)).map (fun p => (Json.num p.1, p.2))

/-- Parse the fields of a JSON object after the opening brace; `first`
distinguishes an empty object from a trailing comma. -/
def parseObjFields : Nat → Bool → List Char → Option (List (String × Json) × List Char)
  | 0, _, _ => none
  | f + 1, first, cs =>
    match skipWs cs with
    | '\x7d' :: rest => if first then some ([], rest) else none
    | '"' :: rest =>
      match parseStrBody rest [] with
      | none => none
      | some (key, r1) =>
        match skipWs r1 with
        | ':' :: r2 =>
          match parseVal f (skipWs r2) with
          | none => none
          | some (v, r3) =>
            match skipWs r3 with
            | ',' :: r4 =>
              (parseObjFields f false r4).map (fun p => ((key, v) :: p.1, p.2))
            | '\x7d' :: r4 => some ([(key, v)], r4)
            | _ => none
        | _ => none
    | _ => none

/-- Parse the elements of a JSON array after the opening bracket. -/
def parseArrElems : Nat → Bool → List Char → Option (List Json × List Char)
  | 0, _, _ => none
  | f + 1, first, cs =>
    match skipWs cs with
    | ']' :: rest => if first then some ([], rest) else none
    | cs2 =>
      match parseVal f cs2 with
      | none => none
      | some (v, r1) =>
        match skipWs r1 with
        | ',' :: r2 => (parseArrElems f false r2).map (fun p => (v :: p.1, p.2))
        | ']' :: r2 => some ([v], r2)
        | _ => none
end

/-- `JSON.parse`: skip leading whitespace, parse one value, and require
only whitespace afterwards; `none` models a thrown SyntaxError. -/
def parseJson (s : String) : Option Json :=
  match parseVal (s.data.length + 4) (skipWs s.data) with
  | some (j, rest) => if skipWs rest = [] then some j else none
  | none => none

/-- Property lookup on a parsed object; with duplicate keys the last
occurrence wins, as in the objects built by `JSON.parse`. -/
def lookupLast (fields : List (String × Json)) (k : String) : Option Json :=
  fields.foldl (fun acc f => if f.1 = k then some f.2 else acc) none

/-- `json.key`: `undefined` (here `none`) on a missing key or a non-object. -/
def jGet : Json → String → Option Json
  | .obj fs, k => lookupLast fs k
  | _, _ => none

/-- Javascript falsiness of a property value: `undefined`, `null`, `false`,
`0` and the empty string are falsy. -/
def jsFalsy : Option Json → Bool
  | none => true
  | some .null => true
  | some (.bool b) => !b
  | some (.num q) => q == 0
  | some (.str s) => s == ""
  | some (.arr _) => false
  | some (.obj _) => false

/-- The `v || d` idiom: the value unless it is falsy, the default otherwise. -/
def jsOr (v : Option Json) (d : Json) : Json :=
  if jsFalsy v then d else v.getD d

/- ===================== Terminal message handler ===================== -/

/-- Observable effect of one `ws.on("message")` invocation: the frames sent
back on the socket, the bytes written to the shell, and the arguments of a
`shell.resize` call when one happens. -/
structure MsgEffect where
  sentFrames : List String
  shellInput : Option String
  resizeArgs : Option (Json × Json)

/-- The frame `JSON.stringify({type:"pong"})`. -/
def pongFrame : String := "\x7b\"type\":\"pong\"\x7d"

/-- The no-op effect: nothing sent, nothing written, no resize. -/
def noEffect : MsgEffect :=
  { sentFrames := [], shellInput := none, resizeArgs := none }

/-- `text.startsWith("\x7b")`: the gate deciding whether a frame is a
control-message candidate. -/
def headIsBrace (s : String) : Bool :=
  match s.data with
  | c :: _ => c = '\x7b'
  | [] => false

/-- Reaction to a successfully parsed control candidate: a `resize` type
calls `shell.resize(json.cols || 80, json.rows || 30)`, a `ping` type sends
one pong frame, anything else does nothing. -/
def controlEffect (j : Json) : MsgEffect :=
  match jGet j "type" with
  | some (.str t) =>
    if t = "resize" then
      { sentFrames := [], shellInput := none,
        resizeArgs := some (jsOr (jGet j "cols") (Json.num 80),
                            jsOr (jGet j "rows") (Json.num 30)) }
    else if t = "ping" then
      { sentFrames := [pongFrame], shellInput := none, resizeArgs := none }
    else noEffect
  | _ => noEffect

/-- The `ws.on("message")` handler: frames starting with a brace are parsed
as JSON (a parse error is caught and ignored) and handled as control
messages; all other frames are written verbatim to the shell. -/
def handleMessage (text : String) : MsgEffect :=
  if headIsBrace text then
    match parseJson text with
    | some j => controlEffect j
    | none => noEffect
  else { sentFrames := [], shellInput := some text, resizeArgs := none }

/- ===================== Filesystem model and file routes ===================== -/

/-- A filesystem entry: a regular file with its text, or a directory. -/
inductive Entry where
  | file (content : String)
  | dir
deriving DecidableEq

/-- A flat filesystem: an association of absolute path strings to entries. -/
abbrev FS := List (String × Entry)

/-- Entry at a path, if any. -/
def fsLookup (fs : FS) (p : String) : Option Entry :=
  (fs.find? (fun e => e.1 == p)).map (fun e => e.2)

/-- `fs.access`-style existence check. -/
def fsExists (fs : FS) (p : String) : Bool :=
  (fsLookup fs p).isSome

/-- `fs.writeFile`: create the file or replace its content. -/
def fsWriteFile (fs : FS) (p : String) (content : String) : FS :=
  (p, .file content) :: fs.filter (fun e => !(e.1 == p))

/-- Remove exactly one path. -/
def fsRemoveExact (fs : FS) (p : String) : FS :=
  fs.filter (fun e => !(e.1 == p))

/-- Remove a path and everything below it. -/
def fsRemoveTree (fs : FS) (p : String) : FS :=
  fs.filter (fun e => !(e.1 == p || strPrefix (p ++ "/") e.1))

/-- Whether the directory at `p` has an entry below it. -/
def fsHasChild (fs : FS) (p : String) : Bool :=
  fs.any (fun e => strPrefix (p ++ "/") e.1)

/-- `fs.rm(p, {recursive, force})`: `force` only forgives a missing path; a
directory is refused with EISDIR unless `recursive` is set; a file is
removed either way. -/
def fsRm (fs : FS) (p : String) (recursive force : Bool) : Except String FS :=
  match fsLookup fs p with
  | none => if force then .ok fs else .error "ENOENT: no such file or directory"
  | some .dir =>
    if recursive then .ok (fsRemoveTree fs p)
    else .error "ERR_FS_EISDIR: Path is a directory"
  | some (.file _) => .ok (fsRemoveExact fs p)

/-- `fs.unlink`: remove a file; a directory or missing path is an error. -/
def fsUnlink (fs : FS) (p : String) : Except String FS :=
  match fsLookup fs p with
  | some (.file _) => .ok (fsRemoveExact fs p)
  | some .dir => .error "EISDIR: illegal operation on a directory"
  | none => .error "ENOENT: no such file or directory"

/-- Status classes of the agent file-route responses. -/
inductive ApiResp where
  | unauthorized
  | badRequest (msg : String)
  | notFound (msg : String)
  | payloadTooLarge
  | forbidden
  | okContent (content : String)
  | okStats (e : Entry)
  | okList (names : List String)
  | okSuccess
deriving DecidableEq

/-- A response together with the filesystem paths the handler touched. -/
structure TracedResp where
  resp : ApiResp
  touched : List String
deriving DecidableEq

/-- The read ceiling of the agent (10 MB). -/
def MAX_FILE_SIZE : Nat := 10 * 1024 * 1024

/-- GET /api/files of codespace-agent.js: auth gate, `safePath`, existence
check (404), directory check (400), size ceiling (413), then the content. -/
def agentReadFile (fs : FS) (workdir : String) (auth : Option String)
    (token : String) (pathQ : Option String) : TracedResp :=
  if assertAuth auth token = false then ⟨.unauthorized, []⟩
  else
    match safePath workdir pathQ with
    | .error m => ⟨.badRequest m, []⟩
    | .ok fp =>
      match fsLookup fs fp with
      | none => ⟨.notFound "File not found", [fp]⟩
      | some .dir => ⟨.badRequest "Path is a directory, not a file", [fp]⟩
      | some (.file c) =>
        if MAX_FILE_SIZE < c.length then ⟨.payloadTooLarge, [fp]⟩
        else ⟨.okContent c, [fp]⟩

/-- PUT /api/files of codespace-agent.js: auth gate, presence of path and
content, `safePath`, then 404 unless the target already exists, and only
then the write. -/
def agentUpdateFile (fs : FS) (workdir : String) (auth : Option String)
    (token : String) (file : Option String) (content : Option String) : ApiResp × FS :=
  if assertAuth auth token = false then (.unauthorized, fs)
  else
    match file, content with
    | none, _ => (.badRequest "Path and content are required", fs)
    | some _, none => (.badRequest "Path and content are required", fs)
    | some f, some c =>
      if f = "" then (.badRequest "Path and content are required", fs)
      else
        match safePath workdir (some f) with
        | .error m => (.badRequest m, fs)
        | .ok fp =>
          if fsExists fs fp = false then (.notFound "File not found", fs)
          else (.okSuccess, fsWriteFile fs fp c)

/-- DELETE /api/files of codespace-agent.js: auth gate, `safePath`,
existence check, then `fs.rm(fp, {recursive: req.query.recursive === "true",
force: true})` on a directory and `fs.unlink(fp)` on a file; a thrown
filesystem error becomes a 400 response. -/
def agentDeleteFile (fs : FS) (workdir : String) (auth : Option String)
    (token : String) (pathQ : Option String) (recursiveQ : Option String) : ApiResp × FS :=
  if assertAuth auth token = false then (.unauthorized, fs)
  else
    match safePath workdir pathQ with
    | .error m => (.badRequest m, fs)
    | .ok fp =>
      if fsExists fs fp = false then (.notFound "File not found", fs)
      else
        match fsLookup fs fp with
        | some .dir =>
          match fsRm fs fp (recursiveQ == some "true") true with
          | .ok fs2 => (.okSuccess, fs2)
          | .error m => (.badRequest m, fs)
        | some (.file _) =>
          match fsUnlink fs fp with
          | .ok fs2 => (.okSuccess, fs2)
          | .error m => (.badRequest m, fs)
        | none => (.notFound "File not found", fs)

/- ===================== ProjectManager file operations ===================== -/

/-- The path a ProjectManager operation touches:
`path.join(this.basePath, p)` with no sandbox check of any kind. -/
def pmFullPath (basePath p : String) : String := pathJoin basePath p

/-- `ProjectManager.readFile`: read at the joined path. -/
def pmReadFile (fs : FS) (basePath filePath : String) : Except String String :=
  match fsLookup fs (pmFullPath basePath filePath) with
  | some (.file c) => .ok c
  | some .dir => .error "Failed to read file: EISDIR"
  | none => .error "Failed to read file: ENOENT"

/-- `ProjectManager.createFile`: write at the joined path, creating the
file when absent. -/
def pmCreateFile (fs : FS) (basePath filePath content : String) : String × FS :=
  ("File created: " ++ filePath, fsWriteFile fs (pmFullPath basePath filePath) content)

/-- `ProjectManager.updateFile`: a bare `fs.writeFile` at the joined path,
with no existence check, reporting success either way. -/
def pmUpdateFile (fs : FS) (basePath filePath content : String) : String × FS :=
  ("File updated: " ++ filePath, fsWriteFile fs (pmFullPath basePath filePath) content)

/-- `ProjectManager.deletePath`: stat the joined path, then
`fs.rm(p, {recursive: true, force: true})` on a directory and `fs.unlink`
on a file; there is no recursive flag in the interface. -/
def pmDeletePath (fs : FS) (basePath targetPath : String) : Except String (String × FS) :=
  match fsLookup fs (pmFullPath basePath targetPath) with
  | none => .error "Failed to delete path: ENOENT"
  | some .dir =>
    .ok ("Directory deleted: " ++ targetPath, fsRemoveTree fs (pmFullPath basePath targetPath))
  | some (.file _) =>
    .ok ("File deleted: " ++ targetPath, fsRemoveExact fs (pmFullPath basePath targetPath))

/- ============ Remaining agent routes, instrumented with touched paths ============ -/

/-- `path.dirname` for the normalized absolute paths `safePath` returns:
the string before the last slash, or the root when that slash is leading
(and `.` for a slash-free relative string). -/
def pathDirname (p : String) : String :=
  let pre := (p.data.reverse.dropWhile (fun c => !(c = '/'))).reverse
  match pre with
  | [] => "."
  | ['/'] => "/"
  | l => String.mk l.dropLast

/-- Lowercasing along `String.prototype.toLowerCase` for ascii. -/
def strToLower (s : String) : String := String.mk (s.data.map Char.toLower)

/-- The last slash-separated component of a path. -/
def lastComponent (p : String) : String :=
  match (splitSlash p).getLast? with
  | some b => b
  | none => ""

/-- `path.extname`: the suffix of the basename from its last dot; empty
when there is no dot, when the only dot leads a dotfile, or for `..`. -/
def extname (p : String) : String :=
  let base := lastComponent p
  if base = ".." then ""
  else
    let rev := base.data.reverse
    let pre := rev.takeWhile (fun c => !(c = '.'))
    if pre.length = rev.length then ""
    else if pre.length + 1 = rev.length then ""
    else String.mk ('.' :: pre.reverse)

/-- `isAllowedExtension` of codespace-agent.js: with no configured list
everything is allowed; otherwise the lowercased extension must appear in
the list, with or without its leading dot. -/
def isAllowedExtension (allowed : Option (List String)) (filePath : String) : Bool :=
  match allowed with
  | none => true
  | some exts =>
    let ext := strToLower (extname filePath)
    exts.contains ext || exts.contains (String.mk ext.data.tail)

/-- `fs.mkdir(p, {recursive:true})` on the flat filesystem: create the
directory entry when absent, succeed silently when present (intermediate
parents are not materialised in the flat model). -/
def fsMkdirP (fs : FS) (p : String) : FS :=
  if fsExists fs p then fs else (p, .dir) :: fs

/-- POST /api/files of codespace-agent.js, with its touched paths: auth
gate, presence of path and content, `safePath`, the extension allow-list
(403), then `fs.mkdir(path.dirname(filePath), {recursive:true})` when
`createDirs` (default true) and the write; the stats call reads the same
written path. -/
def agentWriteFile (fs : FS) (workdir : String) (auth : Option String)
    (token : String) (allowed : Option (List String)) (file : Option String)
    (content : Option String) (createDirs : Bool) : TracedResp × FS :=
  if assertAuth auth token = false then (⟨.unauthorized, []⟩, fs)
  else
    match file, content with
    | none, _ => (⟨.badRequest "Path and content are required", []⟩, fs)
    | some _, none => (⟨.badRequest "Path and content are required", []⟩, fs)
    | some f, some c =>
      if f = "" then (⟨.badRequest "Path and content are required", []⟩, fs)
      else
        match safePath workdir (some f) with
        | .error m => (⟨.badRequest m, []⟩, fs)
        | .ok fp =>
          if isAllowedExtension allowed fp = false then (⟨.forbidden, []⟩, fs)
          else
            (⟨.okSuccess, if createDirs then [pathDirname fp, fp] else [fp]⟩,
             fsWriteFile (if createDirs then fsMkdirP fs (pathDirname fp) else fs) fp c)

/-- PUT /api/files of codespace-agent.js again (the untraced model above
serves the update claim), instrumented with the touched paths: the
existence probe, the write and the stats call all hit the one resolved
path. -/
def agentUpdateFileTraced (fs : FS) (workdir : String) (auth : Option String)
    (token : String) (file : Option String) (content : Option String) :
    TracedResp × FS :=
  if assertAuth auth token = false then (⟨.unauthorized, []⟩, fs)
  else
    match file, content with
    | none, _ => (⟨.badRequest "Path and content are required", []⟩, fs)
    | some _, none => (⟨.badRequest "Path and content are required", []⟩, fs)
    | some f, some c =>
      if f = "" then (⟨.badRequest "Path and content are required", []⟩, fs)
      else
        match safePath workdir (some f) with
        | .error m => (⟨.badRequest m, []⟩, fs)
        | .ok fp =>
          if fsExists fs fp = false then (⟨.notFound "File not found", [fp]⟩, fs)
          else (⟨.okSuccess, [fp]⟩, fsWriteFile fs fp c)

/-- DELETE /api/files of codespace-agent.js again (the untraced model
above serves the delete claim), instrumented with the touched paths: the
existence probe, the stats call and the rm/unlink all hit the one resolved
path. -/
def agentDeleteFileTraced (fs : FS) (workdir : String) (auth : Option String)
    (token : String) (pathQ : Option String) (recursiveQ : Option String) :
    TracedResp × FS :=
  if assertAuth auth token = false then (⟨.unauthorized, []⟩, fs)
  else
    match safePath workdir pathQ with
    | .error m => (⟨.badRequest m, []⟩, fs)
    | .ok fp =>
      if fsExists fs fp = false then (⟨.notFound "File not found", [fp]⟩, fs)
      else
        match fsLookup fs fp with
        | some .dir =>
          match fsRm fs fp (recursiveQ == some "true") true with
          | .ok fs2 => (⟨.okSuccess, [fp]⟩, fs2)
          | .error m => (⟨.badRequest m, [fp]⟩, fs)
        | some (.file _) =>
          match fsUnlink fs fp with
          | .ok fs2 => (⟨.okSuccess, [fp]⟩, fs2)
          | .error m => (⟨.badRequest m, [fp]⟩, fs)
        | none => (⟨.notFound "File not found", [fp]⟩, fs)

/-- `req.query.path || "."`: the listing route's falsy default. -/
def queryPathOrDot (pq : Option String) : String :=
  match pq with
  | none => "."
  | some s => if s = "" then "." else s

/-- The name of an immediate child of directory `dp` recorded at path `p`
in the flat filesystem, when `p` is one (real `readdir` output never
contains a slash and never includes the dot entries). -/
def childNameOf (dp p : String) : Option String :=
  if strPrefix (dp ++ "/") p = true then
    let rest := p.data.drop (dp.data.length + 1)
    if rest.contains '/' ∨ rest = [] ∨ rest = ['.'] ∨ rest = ['.', '.'] then none
    else some (String.mk rest)
  else none

/-- The immediate children names of a directory, the model of `readdir`. -/
def childNames (fs : FS) (dp : String) : List String :=
  fs.filterMap (fun e => childNameOf dp e.1)

/-- The immediate child directories of a directory. -/
def childDirNames (fs : FS) (dp : String) : List String :=
  fs.filterMap (fun e =>
    match e.2 with
    | Entry.dir => childNameOf dp e.1
    | Entry.file _ => none)

/-- GET /api/ls of codespace-agent.js, with its touched paths: auth gate,
`safePath` of `req.query.path || "."`, existence (404) and directory (400)
checks and the `readdir` all at the resolved path; with `detailed=true`
each entry is additionally stat-ed at `path.join(dirPath, entry.name)`,
which for the normalized resolved path and a slash-free entry name is the
slash-concatenation (the per-entry stats body is pure post-processing and
not modelled). -/
def agentLs (fs : FS) (workdir : String) (auth : Option String)
    (token : String) (pathQ : Option String) (detailed : Bool) : TracedResp :=
  if assertAuth auth token = false then ⟨.unauthorized, []⟩
  else
    match safePath workdir (some (queryPathOrDot pathQ)) with
    | .error m => ⟨.badRequest m, []⟩
    | .ok dp =>
      match fsLookup fs dp with
      | none => ⟨.notFound "Directory not found", [dp]⟩
      | some (.file _) => ⟨.badRequest "Path is not a directory", [dp]⟩
      | some .dir =>
        ⟨.okList (childNames fs dp),
         dp :: (if detailed then (childNames fs dp).map (fun n => dp ++ "/" ++ n) else [])⟩

/-- POST /api/mkdir of codespace-agent.js, with its touched paths: auth
gate, the `!dir` check, `safePath`, then the single `mkdir` at the
resolved path (the recursive flag changes nothing in the flat model). -/
def agentMkdir (fs : FS) (workdir : String) (auth : Option String)
    (token : String) (dir : Option String) (_recursive : Bool) : TracedResp × FS :=
  if assertAuth auth token = false then (⟨.unauthorized, []⟩, fs)
  else
    match dir with
    | none => (⟨.badRequest "Path is required", []⟩, fs)
    | some d =>
      if d = "" then (⟨.badRequest "Path is required", []⟩, fs)
      else
        match safePath workdir (some d) with
        | .error m => (⟨.badRequest m, []⟩, fs)
        | .ok dp => (⟨.okSuccess, [dp]⟩, fsMkdirP fs dp)

/-- GET /api/stat of codespace-agent.js, with its touched paths: auth
gate, `safePath`, then the existence probe and the stats call at the one
resolved path. -/
def agentStat (fs : FS) (workdir : String) (auth : Option String)
    (token : String) (pathQ : Option String) : TracedResp :=
  if assertAuth auth token = false then ⟨.unauthorized, []⟩
  else
    match safePath workdir pathQ with
    | .error m => ⟨.badRequest m, []⟩
    | .ok fp =>
      match fsLookup fs fp with
      | none => ⟨.notFound "Path not found", [fp]⟩
      | some e => ⟨.okStats e, [fp]⟩

/-- Whether a name starts with a dot (`entry.name.startsWith(".")`). -/
def headIsDot (s : String) : Bool :=
  match s.data with
  | c :: _ => c = '.'
  | [] => false

/-- The directories `searchRecursive` reads: the given directory, then —
one fuel level per depth, six levels for the default `maxDepth = 5` — the
child directories whose name does not start with a dot, at
`path.join(dir, entry.name)`, the slash-concatenation for these
normalized paths and slash-free names. -/
def searchDirsTouched (fs : FS) : Nat → String → List String
  | 0, _ => []
  | fuel + 1, dir =>
    dir :: ((childDirNames fs dir).filter (fun n => !(headIsDot n))).flatMap
        (fun n => searchDirsTouched fs fuel (dir ++ "/" ++ n))

/-- GET /api/search of codespace-agent.js, with its touched paths: auth
gate, the `!query` check, `safePath` of the search path (destructuring
default `"."`, applied only when the key is absent), then the recursive
directory reads; the response assembles case-insensitive name matches from
those reads and is pure post-processing. -/
def agentSearch (fs : FS) (workdir : String) (auth : Option String)
    (token : String) (query : Option String) (pathQ : Option String) : TracedResp :=
  if assertAuth auth token = false then ⟨.unauthorized, []⟩
  else
    match query with
    | none => ⟨.badRequest "Query is required", []⟩
    | some q =>
      if q = "" then ⟨.badRequest "Query is required", []⟩
      else
        match safePath workdir (some (pathQ.getD ".")) with
        | .error m => ⟨.badRequest m, []⟩
        | .ok dp => ⟨.okSuccess, searchDirsTouched fs 6 dp⟩

theorem bearer_ne_empty (token : String) : ("Bearer " ++ token) ≠ "" := by
  intro h
  have h2 := congrArg String.length h
  rw [String.length_append] at h2
  have h7 : ("Bearer " : String).length = 7 := rfl
  have h0 : ("" : String).length = 0 := rfl
  omega

theorem assertAuth_iff (auth : Option String) (token : String) :
    assertAuth auth token = true ↔ auth = some ("Bearer " ++ token) := by
  cases auth with
  | none => simp [assertAuth]
  | some a =>
    simp only [assertAuth, Bool.and_eq_true, Bool.not_eq_true', beq_eq_false_iff_ne,
      beq_iff_eq, Option.some_inj]
    constructor
    · intro h
      exact h.2
    · intro h
      exact ⟨h ▸ bearer_ne_empty token, h⟩

theorem safePath_ok_prefix (w : String) (p : Option String) (q : String)
    (h : safePath w p = Except.ok q) : strPrefix w q = true := by
  cases p with
  | none => simp [safePath] at h
  | some s =>
    by_cases hs : s = ""
    · simp [safePath, hs] at h
    · by_cases hpre : strPrefix w (pathResolve w s) = true
      · simp only [safePath, hs, if_false, hpre, if_true] at h
        cases h
        exact hpre
      · simp only [safePath, hs, if_false] at h
        rw [if_neg hpre] at h
        cases h

theorem parseVal_brace (f : Nat) (cs : List Char) :
    parseVal (f + 1) ('\x7b' :: cs)
      = (parseObjFields f true cs).map (fun p => (Json.obj p.1, p.2)) := rfl

theorem skipWs_brace (cs : List Char) : skipWs ('\x7b' :: cs) = '\x7b' :: cs := rfl

theorem parseJson_obj (t : String) (j : Json) (hb : headIsBrace t = true)
    (hp : parseJson t = some j) : ∃ fields, j = Json.obj fields := by
  rcases ht : t.data with _ | ⟨c, cs⟩
  · simp [headIsBrace, ht] at hb
  · have hc : c = '\x7b' := by
      simpa [headIsBrace, ht] using hb
    subst hc
    rw [parseJson, ht, skipWs_brace] at hp
    have harith : ('\x7b' :: cs).length + 4 = (cs.length + 4) + 1 := rfl
    rw [harith, parseVal_brace] at hp
    cases hob : parseObjFields (cs.length + 4) true cs with
    | none => rw [hob] at hp; exact Option.noConfusion hp
    | some pr =>
      rw [hob] at hp
      simp only [Option.map_some'] at hp
      by_cases hrest : skipWs pr.2 = []
      · rw [if_pos hrest] at hp
        cases hp
        exact ⟨pr.1, rfl⟩
      · rw [if_neg hrest] at hp
        cases hp

theorem fsLookup_removeTree (fs : FS) (p : String) :
    fsLookup (fsRemoveTree fs p) p = none := by
  induction fs with
  | nil => rfl
  | cons e rest ih =>
    rw [fsRemoveTree, List.filter_cons]
    by_cases h : (!(e.1 == p || strPrefix (p ++ "/") e.1)) = true
    · rw [if_pos h]
      have h2 : (e.1 == p) = false := by
        simp only [Bool.not_eq_true', Bool.or_eq_false_iff] at h
        exact h.1
      simp only [fsLookup, List.find?_cons, h2, cond_false] at ih ⊢
      exact ih
    · rw [if_neg h]
      exact ih

/-- String data of an append is the append of the data. -/
theorem strdata_append (a b : String) : (a ++ b).data = a.data ++ b.data := by
  obtain ⟨x⟩ := a
  obtain ⟨y⟩ := b
  rfl

/-- The boolean prefix test agrees with list prefixhood of the data. -/
theorem strPrefix_iff (a b : String) : strPrefix a b = true ↔ a.data <+: b.data := by
  rw [strPrefix]
  exact List.isPrefixOf_iff_prefix

/-- Every string is a prefix of itself. -/
theorem strPrefix_self (a : String) : strPrefix a a = true := by
  rw [strPrefix_iff]

/-- A prefix of `a` is a prefix of `a ++ b`. -/
theorem strPrefix_extend (w a b : String) (h : strPrefix w a = true) :
    strPrefix w (a ++ b) = true := by
  rw [strPrefix_iff] at h ⊢
  rw [strdata_append]
  exact h.trans (List.prefix_append a.data b.data)

/-- String prefixes compose. -/
theorem strPrefix_trans (a b c : String) (h1 : strPrefix a b = true)
    (h2 : strPrefix b c = true) : strPrefix a c = true := by
  rw [strPrefix_iff] at h1 h2 ⊢
  exact h1.trans h2

/-- String append is associative. -/
theorem strappend_assoc (a b c : String) : a ++ b ++ c = a ++ (b ++ c) := by
  obtain ⟨x⟩ := a
  obtain ⟨y⟩ := b
  obtain ⟨z⟩ := c
  show String.mk (x ++ y ++ z) = String.mk (x ++ (y ++ z))
  rw [List.append_assoc]

/-- Every directory the search recursion reads is the starting directory
or lies below it. -/
theorem searchDirsTouched_spec (fs : FS) : ∀ (fuel : Nat) (dir r : String),
    r ∈ searchDirsTouched fs fuel dir →
    r = dir ∨ strPrefix (dir ++ "/") r = true := by
  intro fuel
  induction fuel with
  | zero =>
    intro dir r hr
    simp [searchDirsTouched] at hr
  | succ f ih =>
    intro dir r hr
    rw [searchDirsTouched] at hr
    rcases List.mem_cons.mp hr with h | h
    · exact Or.inl h
    · right
      rcases List.mem_flatMap.mp h with ⟨n, hn, hrn⟩
      rcases ih (dir ++ "/" ++ n) r hrn with h2 | h2
      · subst h2
        exact strPrefix_extend _ _ _ (strPrefix_self _)
      · have h3 : strPrefix (dir ++ "/") (dir ++ "/" ++ n ++ "/") = true := by
          rw [strappend_assoc (dir ++ "/") n "/"]
          exact strPrefix_extend _ _ _ (strPrefix_self _)
        exact strPrefix_trans _ _ _ h3 h2

/-- The read route touches only its `safePath` resolution. -/
theorem readRoute_touched (fs : FS) (w : String)
    (auth : Option String) (token : String) (pq : Option String) (r : String)
    (hr : r ∈ (agentReadFile fs w auth token pq).touched) :
    safePath w pq = Except.ok r ∧ strPrefix w r = true := by
  unfold agentReadFile at hr
  split at hr
  · simp at hr
  · split at hr
    · simp at hr
    · rename_i fp hsp
      have hmem : r = fp := by
        split at hr
        · simpa using hr
        · simpa using hr
        · split at hr
          · simpa using hr
          · simpa using hr
      subst hmem
      exact ⟨hsp, safePath_ok_prefix w pq r hsp⟩

/-- The write route touches only its `safePath` resolution and, for the
parent-creating `mkdir`, that resolution's lexical parent. -/
theorem writeRoute_touched (w : String) (fs : FS) (auth : Option String)
    (token : String) (allowed : Option (List String)) (file content : Option String)
    (cd : Bool) (r : String)
    (hr : r ∈ (agentWriteFile fs w auth token allowed file content cd).1.touched) :
    ∃ fp, safePath w file = Except.ok fp ∧ (r = fp ∨ r = pathDirname fp) ∧
      strPrefix w fp = true := by
  unfold agentWriteFile at hr
  split at hr
  · simp at hr
  · split at hr
    · simp at hr
    · simp at hr
    · rename_i f c
      split at hr
      · simp at hr
      · split at hr
        · simp at hr
        · rename_i fp hsp
          split at hr
          · simp at hr
          · refine ⟨fp, hsp, ?_, safePath_ok_prefix w (some f) fp hsp⟩
            split at hr
            · rcases List.mem_cons.mp hr with h | h
              · exact Or.inr h
              · simp at h
                exact Or.inl h
            · simp at hr
              exact Or.inl hr

/-- The traced update route touches only its `safePath` resolution. -/
theorem updateRoute_touched (w : String) (fs : FS) (auth : Option String)
    (token : String) (file content : Option String) (r : String)
    (hr : r ∈ (agentUpdateFileTraced fs w auth token file content).1.touched) :
    safePath w file = Except.ok r ∧ strPrefix w r = true := by
  unfold agentUpdateFileTraced at hr
  split at hr
  · simp at hr
  · split at hr
    · simp at hr
    · simp at hr
    · rename_i f c
      split at hr
      · simp at hr
      · split at hr
        · simp at hr
        · rename_i fp hsp
          have hmem : r = fp := by
            split at hr
            · simpa using hr
            · simpa using hr
          subst hmem
          exact ⟨hsp, safePath_ok_prefix w (some f) r hsp⟩

/-- The traced delete route touches only its `safePath` resolution. -/
theorem deleteRoute_touched (w : String) (fs : FS) (auth : Option String)
    (token : String) (pq recQ : Option String) (r : String)
    (hr : r ∈ (agentDeleteFileTraced fs w auth token pq recQ).1.touched) :
    safePath w pq = Except.ok r ∧ strPrefix w r = true := by
  unfold agentDeleteFileTraced at hr
  split at hr
  · simp at hr
  · split at hr
    · simp at hr
    · rename_i fp hsp
      have hmem : r = fp := by
        split at hr
        · simpa using hr
        · split at hr
          · split at hr
            · simpa using hr
            · simpa using hr
          · split at hr
            · simpa using hr
            · simpa using hr
          · simpa using hr
      subst hmem
      exact ⟨hsp, safePath_ok_prefix w pq r hsp⟩

/-- The mkdir route touches only its `safePath` resolution. -/
theorem mkdirRoute_touched (w : String) (fs : FS) (auth : Option String)
    (token : String) (dir : Option String) (rec : Bool) (r : String)
    (hr : r ∈ (agentMkdir fs w auth token dir rec).1.touched) :
    safePath w dir = Except.ok r ∧ strPrefix w r = true := by
  unfold agentMkdir at hr
  split at hr
  · simp at hr
  · split at hr
    · simp at hr
    · rename_i d
      split at hr
      · simp at hr
      · split at hr
        · simp at hr
        · rename_i dp hsp
          simp only [List.mem_singleton] at hr
          subst hr
          exact ⟨hsp, safePath_ok_prefix w (some d) r hsp⟩

/-- The stat route touches only its `safePath` resolution. -/
theorem statRoute_touched (w : String) (fs : FS) (auth : Option String)
    (token : String) (pq : Option String) (r : String)
    (hr : r ∈ (agentStat fs w auth token pq).touched) :
    safePath w pq = Except.ok r ∧ strPrefix w r = true := by
  unfold agentStat at hr
  split at hr
  · simp at hr
  · split at hr
    · simp at hr
    · rename_i fp hsp
      have hmem : r = fp := by
        split at hr
        · simpa using hr
        · simpa using hr
      subst hmem
      exact ⟨hsp, safePath_ok_prefix w pq r hsp⟩

/-- The listing route touches only its `safePath` resolution and, with the
detailed flag, that directory's immediate entries below it. -/
theorem lsRoute_touched (w : String) (fs : FS) (auth : Option String)
    (token : String) (pq : Option String) (detailed : Bool) (r : String)
    (hr : r ∈ (agentLs fs w auth token pq detailed).touched) :
    ∃ dp, safePath w (some (queryPathOrDot pq)) = Except.ok dp ∧
      (r = dp ∨ strPrefix (dp ++ "/") r = true) ∧ strPrefix w r = true := by
  unfold agentLs at hr
  split at hr
  · simp at hr
  · split at hr
    · simp at hr
    · rename_i dp hsp
      have hwdp := safePath_ok_prefix w (some (queryPathOrDot pq)) dp hsp
      split at hr
      · simp only [List.mem_singleton] at hr
        exact ⟨dp, hsp, Or.inl hr, by rw [hr]; exact hwdp⟩
      · simp only [List.mem_singleton] at hr
        exact ⟨dp, hsp, Or.inl hr, by rw [hr]; exact hwdp⟩
      · rcases List.mem_cons.mp hr with h | h
        · exact ⟨dp, hsp, Or.inl h, by rw [h]; exact hwdp⟩
        · split at h
          · rcases List.mem_map.mp h with ⟨n, hn, heq⟩
            refine ⟨dp, hsp, Or.inr ?_, ?_⟩
            · rw [← heq]
              exact strPrefix_extend _ _ _ (strPrefix_self _)
            · rw [← heq, strappend_assoc]
              exact strPrefix_extend w dp _ hwdp
          · simp at h

/-- The search route touches only its `safePath` resolution and
directories below it. -/
theorem searchRoute_touched (w : String) (fs : FS) (auth : Option String)
    (token : String) (q pq : Option String) (r : String)
    (hr : r ∈ (agentSearch fs w auth token q pq).touched) :
    ∃ dp, safePath w (some (pq.getD ".")) = Except.ok dp ∧
      (r = dp ∨ strPrefix (dp ++ "/") r = true) ∧ strPrefix w r = true := by
  unfold agentSearch at hr
  split at hr
  · simp at hr
  · split at hr
    · simp at hr
    · rename_i qs
      split at hr
      · simp at hr
      · split at hr
        · simp at hr
        · rename_i dp hsp
          have hwdp := safePath_ok_prefix w (some (pq.getD ".")) dp hsp
          rcases searchDirsTouched_spec fs 6 dp r hr with h | h
          · exact ⟨dp, hsp, Or.inl h, by rw [h]; exact hwdp⟩
          · exact ⟨dp, hsp, Or.inr h,
              strPrefix_trans _ _ _ (strPrefix_extend w dp "/" hwdp) h⟩

/- ===================== Claim C1 ===================== -/

/-- C1 counterexample: `safePath` accepts the candidate `../work-evil`
against the root `/work`, returning the sibling `/work-evil`, which does
not lie inside the working directory; and it accepts `.`, returning the
root itself, of which the root is not a strict prefix. So resolution has a
third outcome besides a strictly-inside path and an InvalidPath failure. -/
theorem safePath_strict_prefix_counterexample :
    safePath "/work" (some "../work-evil") = Except.ok "/work-evil" ∧
    underRoot "/work" "/work-evil" = false ∧
    safePath "/work" (some ".") = Except.ok "/work" :=
  ⟨rfl, rfl, rfl⟩

/-- C1 amended: `safePath` either fails (on a missing/empty candidate or a
resolution not string-prefixed by WorkingRoot) or returns the purely
lexical resolution, which is then guaranteed only to carry WorkingRoot as
a string prefix — it may equal the root or be a sibling sharing the prefix,
and symbolic links are never consulted; `../../etc/passwd` still fails. -/
theorem safePath_string_prefix_gate (w : String) (p : Option String) (q : String) :
    (safePath w p = Except.ok q → strPrefix w q = true) ∧
    (safePath w none = Except.error "Path is required") ∧
    (safePath "/work" (some "../../etc/passwd")
       = Except.error "Invalid path: outside working directory") :=
  ⟨fun h => safePath_ok_prefix w p q h, rfl, rfl⟩

/-- C1 witness: the in-sandbox candidate `src/app.js` resolves under
`/work` and the theorem yields its string-prefix guarantee. -/
theorem safePath_string_prefix_gate_witness :
    strPrefix "/work" "/work/src/app.js" = true :=
  (safePath_string_prefix_gate "/work" (some "src/app.js") "/work/src/app.js").1 rfl

/- ===================== Claim C2 ===================== -/

/-- C2 counterexample: `ProjectManager.readFile` reaches the filesystem at
`path.join(basePath, p)` with no sandbox check: the client path
`../../etc/passwd` reads a file outside the base directory. -/
theorem projectmanager_sandbox_bypass_counterexample :
    pmReadFile [("/base", Entry.dir), ("/base/a.txt", Entry.file "hello"),
                ("/etc/passwd", Entry.file "root:x:0:0")] "/base" "../../etc/passwd"
      = Except.ok "root:x:0:0" ∧
    underRoot "/base" (pmFullPath "/base" "../../etc/passwd") = false :=
  ⟨rfl, rfl⟩

/-- C2 amended: every codespace-agent file route (read, write, update,
delete, directory listing, mkdir, stat, name search) touches the
filesystem only at the `safePath` resolution of its client path, at paths
beneath that resolution (the detailed listing's immediate entries and the
search recursion's subdirectories), or — for the write route's optional
parent creation — at the lexical parent of that resolution; the resolution
itself always carries WorkingRoot as a string prefix. The ProjectManager
server has no such choke point and joins client paths directly, so the
system-wide single-choke-point invariant fails. -/
theorem agent_routes_touch_only_sandboxed_paths (w : String) :
    (∀ (fs : FS) (auth : Option String) (token : String) (pq : Option String) (r : String),
       r ∈ (agentReadFile fs w auth token pq).touched →
       safePath w pq = Except.ok r ∧ strPrefix w r = true) ∧
    (∀ (fs : FS) (auth : Option String) (token : String)
       (allowed : Option (List String)) (file content : Option String)
       (cd : Bool) (r : String),
       r ∈ (agentWriteFile fs w auth token allowed file content cd).1.touched →
       ∃ fp, safePath w file = Except.ok fp ∧ (r = fp ∨ r = pathDirname fp) ∧
         strPrefix w fp = true) ∧
    (∀ (fs : FS) (auth : Option String) (token : String)
       (file content : Option String) (r : String),
       r ∈ (agentUpdateFileTraced fs w auth token file content).1.touched →
       safePath w file = Except.ok r ∧ strPrefix w r = true) ∧
    (∀ (fs : FS) (auth : Option String) (token : String)
       (pq recQ : Option String) (r : String),
       r ∈ (agentDeleteFileTraced fs w auth token pq recQ).1.touched →
       safePath w pq = Except.ok r ∧ strPrefix w r = true) ∧
    (∀ (fs : FS) (auth : Option String) (token : String) (pq : Option String)
       (detailed : Bool) (r : String),
       r ∈ (agentLs fs w auth token pq detailed).touched →
       ∃ dp, safePath w (some (queryPathOrDot pq)) = Except.ok dp ∧
         (r = dp ∨ strPrefix (dp ++ "/") r = true) ∧ strPrefix w r = true) ∧
    (∀ (fs : FS) (auth : Option String) (token : String) (dir : Option String)
       (rec : Bool) (r : String),
       r ∈ (agentMkdir fs w auth token dir rec).1.touched →
       safePath w dir = Except.ok r ∧ strPrefix w r = true) ∧
    (∀ (fs : FS) (auth : Option String) (token : String) (pq : Option String) (r : String),
       r ∈ (agentStat fs w auth token pq).touched →
       safePath w pq = Except.ok r ∧ strPrefix w r = true) ∧
    (∀ (fs : FS) (auth : Option String) (token : String) (q pq : Option String) (r : String),
       r ∈ (agentSearch fs w auth token q pq).touched →
       ∃ dp, safePath w (some (pq.getD ".")) = Except.ok dp ∧
         (r = dp ∨ strPrefix (dp ++ "/") r = true) ∧ strPrefix w r = true) :=
  ⟨fun fs auth token pq r hr => readRoute_touched fs w auth token pq r hr,
   fun fs auth token allowed file content cd r hr =>
     writeRoute_touched w fs auth token allowed file content cd r hr,
   fun fs auth token file content r hr =>
     updateRoute_touched w fs auth token file content r hr,
   fun fs auth token pq recQ r hr => deleteRoute_touched w fs auth token pq recQ r hr,
   fun fs auth token pq detailed r hr => lsRoute_touched w fs auth token pq detailed r hr,
   fun fs auth token dir rec r hr => mkdirRoute_touched w fs auth token dir rec r hr,
   fun fs auth token pq r hr => statRoute_touched w fs auth token pq r hr,
   fun fs auth token q pq r hr => searchRoute_touched w fs auth token q pq r hr⟩

/-- C2 witness: a concrete authorized read of `a.txt` under root `/w`
touches only the sandboxed path `/w/a.txt`. -/
theorem agent_routes_touch_only_sandboxed_paths_witness :
    safePath "/w" (some "a.txt") = Except.ok "/w/a.txt" ∧
    strPrefix "/w" "/w/a.txt" = true :=
  (agent_routes_touch_only_sandboxed_paths "/w").1 [("/w/a.txt", Entry.file "x")]
    (some "Bearer secrets") "secrets" (some "a.txt") "/w/a.txt" (by decide)

/- ===================== Claim C3 ===================== -/

/-- C3 counterexample: the second server's POST /api/shell handler runs the
command for a request with no Authorization header at all — it is not the
liveness probe and it performs no credential check. -/
theorem shell_route_ignores_missing_auth_counterexample :
    part000ShellRoute none (some "echo hi") none false
      = ShellRouteResp.ran "echo hi" none false := rfl

/-- C3 amended: in codespace-agent.js every handler except GET /health is
guarded by `assertAuth`, which rejects exactly the requests whose header is
not byte-for-byte `Bearer <token>` with 401 before the body runs; the
ProjectManager server's handlers, such as POST /api/shell, consult no
credential at all and behave identically with and without the header. -/
theorem agent_auth_gate_and_unauthenticated_shell {α : Type} (auth : Option String)
    (token : String) (body : α) :
    (guarded auth token body = Guarded.unauthorized ↔ ¬ auth = some ("Bearer " ++ token)) ∧
    (guarded auth token body = Guarded.handled body ↔ auth = some ("Bearer " ++ token)) ∧
    (∀ a c w s, part000ShellRoute a c w s = part000ShellRoute none c w s) := by
  have hiff := assertAuth_iff auth token
  refine ⟨?_, ?_, fun a c w s => rfl⟩
  · cases hb : assertAuth auth token
    · rw [hb] at hiff
      simp only [guarded, hb, Bool.false_eq_true, if_false]
      simp [← hiff]
    · rw [hb] at hiff
      simp only [guarded, hb, if_true]
      constructor
      · intro h
        exact Guarded.noConfusion h
      · intro h
        exact absurd (hiff.mp rfl) h
  · cases hb : assertAuth auth token
    · rw [hb] at hiff
      simp only [guarded, hb, Bool.false_eq_true, if_false]
      constructor
      · intro h
        exact Guarded.noConfusion h
      · intro h
        exact absurd h (by simpa using hiff)
    · rw [hb] at hiff
      simp only [guarded, hb, if_true]
      simp [← hiff]

/-- C3 witness: the exact credential is accepted by the agent gate. -/
theorem agent_auth_gate_and_unauthenticated_shell_witness :
    guarded (some "Bearer secrets") "secrets" true = Guarded.handled true :=
  (agent_auth_gate_and_unauthenticated_shell (some "Bearer secrets") "secrets" true).2.1.mpr rfl

/- ===================== Claim C4 ===================== -/

/-- C4: the upgrade handler answers any header other than the exact bearer
credential with an unauthorized status and a destroyed socket, leaving the
session set unchanged; a session is created only for the exact credential
on the terminal url, and it is the newly spawned one. -/
theorem upgrade_requires_exact_bearer (auth : Option String) (token url newId : String)
    (sessions : List String) :
    (¬ auth = some ("Bearer " ++ token) →
       handleUpgrade auth token url sessions newId
         = (UpgradeOutcome.unauthorizedClosed, sessions)) ∧
    (∀ sid, (handleUpgrade auth token url sessions newId).1
         = UpgradeOutcome.sessionCreated sid →
       auth = some ("Bearer " ++ token) ∧ url = "/ws/terminal" ∧ sid = newId) := by
  constructor
  · intro h
    rw [handleUpgrade, if_pos h]
  · intro sid hs
    by_cases h : auth = some ("Bearer " ++ token)
    · by_cases hu : url = "/ws/terminal"
      · refine ⟨h, hu, ?_⟩
        rw [handleUpgrade, if_neg (not_not_intro h), if_pos hu] at hs
        cases hs
        rfl
      · rw [handleUpgrade, if_neg (not_not_intro h), if_neg hu] at hs
        exact UpgradeOutcome.noConfusion hs
    · rw [handleUpgrade, if_pos h] at hs
      exact UpgradeOutcome.noConfusion hs

/-- C4 witness: a missing Authorization header on the terminal upgrade is
rejected and the (empty) session set stays empty. -/
theorem upgrade_requires_exact_bearer_witness :
    handleUpgrade none "secrets" "/ws/terminal" [] "abc"
      = (UpgradeOutcome.unauthorizedClosed, []) :=
  (upgrade_requires_exact_bearer none "secrets" "/ws/terminal" "abc" []).1 (by simp)

/- ===================== Claim C5 ===================== -/

/-- C5: among the control-candidate frames (those beginning with a brace,
the only ones the handler hands to the JSON parser), a frame parsing to an
object whose type is the string ping yields exactly one pong frame and no
shell input; a parse failure is a no-op, neither an error nor shell input;
a parsed value with an unrecognized type is likewise a no-op; any other
frame is forwarded verbatim to the shell; and an effectful control reaction
happens only for a frame that is syntactically a structured object. -/
theorem terminal_control_message_policy (t : String) (j : Json) :
    (headIsBrace t = true → parseJson t = some j →
       jGet j "type" = some (Json.str "ping") →
       handleMessage t
         = { sentFrames := [pongFrame], shellInput := none, resizeArgs := none }) ∧
    (headIsBrace t = true → parseJson t = none → handleMessage t = noEffect) ∧
    (headIsBrace t = true → parseJson t = some j →
       ¬ jGet j "type" = some (Json.str "ping") →
       ¬ jGet j "type" = some (Json.str "resize") →
       handleMessage t = noEffect) ∧
    (¬ headIsBrace t = true →
       handleMessage t
         = { sentFrames := [], shellInput := some t, resizeArgs := none }) ∧
    (((handleMessage t).sentFrames ≠ [] ∨ (handleMessage t).resizeArgs.isSome = true) →
       headIsBrace t = true ∧ ∃ fields, parseJson t = some (Json.obj fields)) := by
  refine ⟨?_, ?_, ?_, ?_, ?_⟩
  · intro hb hp ht
    rw [handleMessage, if_pos hb, hp]
    show controlEffect j = _
    simp [controlEffect, ht]
  · intro hb hp
    rw [handleMessage, if_pos hb, hp]
  · intro hb hp h1 h2
    rw [handleMessage, if_pos hb, hp]
    show controlEffect j = noEffect
    cases hjt : jGet j "type" with
    | none => simp [controlEffect, hjt]
    | some v =>
      cases v with
      | str s =>
        rw [hjt] at h1 h2
        have hs1 : ¬ s = "ping" := fun he => h1 (by rw [he])
        have hs2 : ¬ s = "resize" := fun he => h2 (by rw [he])
        simp [controlEffect, hjt, hs1, hs2]
      | null => simp [controlEffect, hjt]
      | bool b => simp [controlEffect, hjt]
      | num q => simp [controlEffect, hjt]
      | arr xs => simp [controlEffect, hjt]
      | obj fs => simp [controlEffect, hjt]
  · intro hb
    rw [handleMessage, if_neg hb]
  · intro hor
    by_cases hb : headIsBrace t = true
    · refine ⟨hb, ?_⟩
      cases hp : parseJson t with
      | none =>
        rw [handleMessage, if_pos hb, hp] at hor
        simp [noEffect] at hor
      | some j2 =>
        obtain ⟨fields, hf⟩ := parseJson_obj t j2 hb hp
        refine ⟨fields, ?_⟩
        rw [← hf]
    · rw [handleMessage, if_neg hb] at hor
      simp at hor

/-- C5 witness: the exact frame carrying type ping produces the single
pong frame and writes nothing to the shell. -/
theorem terminal_control_message_policy_witness :
    handleMessage "\x7b\"type\":\"ping\"\x7d"
      = { sentFrames := [pongFrame], shellInput := none, resizeArgs := none } :=
  (terminal_control_message_policy "\x7b\"type\":\"ping\"\x7d"
      (Json.obj [("type", Json.str "ping")])).1 rfl rfl rfl

/- ===================== Claim C6 ===================== -/

/-- C6: when a terminal connection closes, the close handler kills the
paired shell and deletes the session, so the session is gone from the live
set immediately after the handler runs. -/
theorem conn_close_removes_session_and_kills (st : TermSessions) (sid : String) :
    sid ∈ (onConnClose st sid).killedShells ∧
    ¬ sid ∈ (onConnClose st sid).live ∧
    (onConnClose st sid).live = mapDelete st.live sid := by
  refine ⟨?_, ?_, rfl⟩
  · simp [onConnClose]
  · simp [onConnClose, mapDelete, List.mem_filter]

/-- C6 witness: closing the connection of session `a` kills its shell and
removes it from a live set that contained it. -/
theorem conn_close_removes_session_and_kills_witness :
    "a" ∈ (onConnClose ⟨["a", "b"], []⟩ "a").killedShells ∧
    ¬ "a" ∈ (onConnClose ⟨["a", "b"], []⟩ "a").live ∧
    (onConnClose ⟨["a", "b"], []⟩ "a").live = mapDelete ["a", "b"] "a" :=
  conn_close_removes_session_and_kills ⟨["a", "b"], []⟩ "a"

/- ===================== Claim C7 ===================== -/

/-- C7 counterexample: a streaming invocation of a command that runs for
40000 ms — beyond the 30000 ms configured timeout of the buffered path —
is not failed and not killed: it reports success and the process lives for
its full duration, because `runCommandStream` passes no timeout at all. -/
theorem streaming_no_timeout_counterexample :
    (runCommandStream
        { command := "sleep 40", duration := 40000, exitCode := 0,
          stdout := "done", stderr := "" }).result.success = true ∧
    (runCommandStream
        { command := "sleep 40", duration := 40000, exitCode := 0,
          stdout := "done", stderr := "" }).processLifetime = 40000 ∧
    defaultTimeout < 40000 :=
  ⟨rfl, rfl, by decide⟩

/-- C7 amended: only the buffered path is time-bounded: a buffered command
exceeding the 30000 ms timeout yields success=false with exit code 1 and
the process is killed when the timeout fires, while a streaming command
always runs to natural completion with success decided by its exit code. -/
theorem buffered_timeout_kills_streaming_never (c : CmdSpec)
    (h : defaultTimeout < c.duration) :
    (runCommand c).result.success = false ∧
    (runCommand c).processLifetime = defaultTimeout ∧
    (runCommand c).result.exitCode = 1 ∧
    (runCommandStream c).processLifetime = c.duration ∧
    (runCommandStream c).result.success = (c.exitCode == 0) := by
  rw [runCommand, if_pos h]
  exact ⟨rfl, rfl, rfl, rfl, rfl⟩

/-- C7 witness: a 60-second command on the buffered path fails and is cut
off at the timeout. -/
theorem buffered_timeout_kills_streaming_never_witness :
    (runCommand
        { command := "sleep 60", duration := 60000, exitCode := 0,
          stdout := "", stderr := "" }).result.success = false ∧
    (runCommand
        { command := "sleep 60", duration := 60000, exitCode := 0,
          stdout := "", stderr := "" }).processLifetime = defaultTimeout ∧
    (runCommand
        { command := "sleep 60", duration := 60000, exitCode := 0,
          stdout := "", stderr := "" }).result.exitCode = 1 ∧
    (runCommandStream
        { command := "sleep 60", duration := 60000, exitCode := 0,
          stdout := "", stderr := "" }).processLifetime = 60000 ∧
    (runCommandStream
        { command := "sleep 60", duration := 60000, exitCode := 0,
          stdout := "", stderr := "" }).result.success = ((0 : Int) == 0) :=
  buffered_timeout_kills_streaming_never
    { command := "sleep 60", duration := 60000, exitCode := 0, stdout := "", stderr := "" }
    (by decide)

/- ===================== Claim C8 ===================== -/

/-- C8 counterexample: the second server's update route writes through
`ProjectManager.updateFile`, a bare `fs.writeFile` with no existence check:
updating a path with no file reports success and creates the file. -/
theorem pm_update_creates_missing_file_counterexample :
    fsExists [("/base", Entry.dir)] (pmFullPath "/base" "new.txt") = false ∧
    pmUpdateFile [("/base", Entry.dir)] "/base" "new.txt" "hello"
      = ("File updated: new.txt",
         [("/base/new.txt", Entry.file "hello"), ("/base", Entry.dir)]) ∧
    fsExists (pmUpdateFile [("/base", Entry.dir)] "/base" "new.txt" "hello").2
      (pmFullPath "/base" "new.txt") = true :=
  ⟨rfl, rfl, rfl⟩

/-- C8 amended: the agent's PUT /api/files route answers 404 and leaves
the filesystem untouched when the sandboxed target does not exist, and
never creates a file; the ProjectManager update path writes
unconditionally and does create missing files. -/
theorem agent_update_requires_existing_target (fs : FS) (w : String)
    (auth : Option String) (token f c fp : String)
    (hauth : assertAuth auth token = true)
    (hsp : safePath w (some f) = Except.ok fp)
    (hne : fsExists fs fp = false) :
    agentUpdateFile fs w auth token (some f) (some c)
      = (ApiResp.notFound "File not found", fs) := by
  have hf : ¬ f = "" := by
    intro h
    rw [h] at hsp
    simp [safePath] at hsp
  rw [agentUpdateFile, hauth]
  simp only [Bool.true_eq_false, if_false]
  rw [if_neg hf, hsp]
  exact if_pos hne

/-- C8 witness: an authorized update of the absent `/w/a.txt` under root
`/w` returns the 404 response and leaves the filesystem unchanged. -/
theorem agent_update_requires_existing_target_witness :
    agentUpdateFile [("/w", Entry.dir)] "/w" (some "Bearer secrets") "secrets"
        (some "a.txt") (some "x")
      = (ApiResp.notFound "File not found", [("/w", Entry.dir)]) :=
  agent_update_requires_existing_target [("/w", Entry.dir)] "/w"
    (some "Bearer secrets") "secrets" "a.txt" "x" "/w/a.txt" rfl rfl rfl

/- ===================== Claim C9 ===================== -/

/-- C9 counterexample: `ProjectManager.deletePath` takes no recursive flag
and deletes a non-empty directory unconditionally, reporting success, after
which the path no longer exists. -/
theorem pm_delete_always_recursive_counterexample :
    fsHasChild [("/base", Entry.dir), ("/base/d", Entry.dir),
                ("/base/d/f.txt", Entry.file "x")] "/base/d" = true ∧
    pmDeletePath [("/base", Entry.dir), ("/base/d", Entry.dir),
                  ("/base/d/f.txt", Entry.file "x")] "/base" "d"
      = Except.ok ("Directory deleted: d", [("/base", Entry.dir)]) ∧
    fsExists [("/base", Entry.dir)] "/base/d" = false :=
  ⟨rfl, rfl, rfl⟩

/-- C9 amended: the agent's DELETE /api/files refuses a directory — empty
or not — unless the query carries recursive=true, leaving the filesystem
unchanged, and with the flag removes the whole subtree so that the path no
longer exists; the ProjectManager delete path has no flag and always
removes directories recursively. -/
theorem agent_delete_directory_needs_recursive_flag (fs : FS) (w : String)
    (auth : Option String) (token : String) (pq : Option String)
    (recQ : Option String) (fp : String)
    (hauth : assertAuth auth token = true)
    (hsp : safePath w pq = Except.ok fp)
    (hdir : fsLookup fs fp = some Entry.dir)
    (_hchild : fsHasChild fs fp = true) :
    ((recQ == some "true") = false →
       agentDeleteFile fs w auth token pq recQ
         = (ApiResp.badRequest "ERR_FS_EISDIR: Path is a directory", fs)) ∧
    ((recQ == some "true") = true →
       agentDeleteFile fs w auth token pq recQ = (ApiResp.okSuccess, fsRemoveTree fs fp) ∧
       fsExists (fsRemoveTree fs fp) fp = false) := by
  have hex : ¬ fsExists fs fp = false := by
    simp [fsExists, hdir]
  constructor
  · intro hrec
    rw [agentDeleteFile, hauth]
    simp only [Bool.true_eq_false, if_false]
    rw [hsp]
    simp only [hex, if_false, hdir, fsRm, hrec]
    rfl
  · intro hrec
    constructor
    · rw [agentDeleteFile, hauth]
      simp only [Bool.true_eq_false, if_false]
      rw [hsp]
      simp only [hex, if_false, hdir, fsRm, hrec]
      rfl
    · simp [fsExists, fsLookup_removeTree]

/-- C9 witness: without the flag the agent refuses to delete the non-empty
directory `/w/d`; the directory and its child remain. -/
theorem agent_delete_directory_needs_recursive_flag_witness :
    agentDeleteFile [("/w/d", Entry.dir), ("/w/d/f.txt", Entry.file "x")] "/w"
        (some "Bearer secrets") "secrets" (some "d") none
      = (ApiResp.badRequest "ERR_FS_EISDIR: Path is a directory",
         [("/w/d", Entry.dir), ("/w/d/f.txt", Entry.file "x")]) :=
  (agent_delete_directory_needs_recursive_flag
      [("/w/d", Entry.dir), ("/w/d/f.txt", Entry.file "x")] "/w"
      (some "Bearer secrets") "secrets" (some "d") none "/w/d"
      rfl rfl rfl rfl).1 rfl

/- ===================== Claim C10 ===================== -/

/-- C10: a parsed resize control message sends no reply frame and writes
nothing to the shell; the resize arguments are `json.cols || 80` and
`json.rows || 30`, so a missing, zero or otherwise falsy field is replaced
by the default 80 columns or 30 rows. -/
theorem resize_defaults_and_silence (t : String) (j : Json) :
    headIsBrace t = true → parseJson t = some j →
    jGet j "type" = some (Json.str "resize") →
    (handleMessage t).sentFrames = [] ∧
    (handleMessage t).shellInput = none ∧
    (handleMessage t).resizeArgs
      = some (jsOr (jGet j "cols") (Json.num 80), jsOr (jGet j "rows") (Json.num 30)) ∧
    (jsFalsy (jGet j "cols") = true → jsOr (jGet j "cols") (Json.num 80) = Json.num 80) ∧
    (jsFalsy (jGet j "rows") = true → jsOr (jGet j "rows") (Json.num 30) = Json.num 30) := by
  intro hb hp ht
  have heff : handleMessage t
      = { sentFrames := [], shellInput := none,
          resizeArgs := some (jsOr (jGet j "cols") (Json.num 80),
                              jsOr (jGet j "rows") (Json.num 30)) } := by
    rw [handleMessage, if_pos hb, hp]
    show controlEffect j = _
    simp [controlEffect, ht]
  refine ⟨by rw [heff], by rw [heff], by rw [heff], ?_, ?_⟩
  · intro hfc
    rw [jsOr, if_pos hfc]
  · intro hfr
    rw [jsOr, if_pos hfr]

/-- C10 witness: the frame resizing with cols 0 and no rows field resizes
to the defaults 80 and 30 and sends nothing back. -/
theorem resize_defaults_and_silence_witness :
    (handleMessage "\x7b\"type\":\"resize\",\"cols\":0\x7d").resizeArgs
      = some (Json.num 80, Json.num 30) ∧
    (handleMessage "\x7b\"type\":\"resize\",\"cols\":0\x7d").sentFrames = [] := by
  have h := resize_defaults_and_silence "\x7b\"type\":\"resize\",\"cols\":0\x7d"
    (Json.obj [("type", Json.str "resize"), ("cols", Json.num 0)]) rfl rfl rfl
  exact ⟨h.2.2.1.trans rfl, h.1⟩
